import Mathlib

/-!
Shallow embedding of the WebGPU Game-of-Life engine (`part_000` of the
repository).  The WGSL compute kernel (`cellIndex`, `cellActive`,
`computeMain`), the dispatch geometry (`GRID_SIZE`, `WORKGROUP_SIZE`,
`WORKGROUP_COUNT`), the double-buffered bind groups (`uniformBindGroups`)
and the buffer seeding loops are translated into executable Lean
definitions.  Machine `u32` arithmetic is modelled on `Nat` with explicit
reduction modulo `U32 = 2^32` where wraparound can occur (the `± 1`
neighbour offsets and the neighbour sum).
-/

namespace GameOfLife

/-- Modulus of WGSL 32-bit unsigned integers: `2^32`. -/
def U32 : Nat := 4294967296

/-- Wrapping `u32` addition, as performed by WGSL on `cell.x + 1` etc. -/
def u32add (a b : Nat) : Nat := (a + b) % U32

/-- Wrapping `u32` subtraction: `a - b` in WGSL `u32` arithmetic
(for `a, b < U32` this is `(a + U32 - b) mod U32`). -/
def u32sub (a b : Nat) : Nat := (a + (U32 - b % U32)) % U32

/-- `const GRID_SIZE = 32;` (`part_000`, line 3). -/
def GRID_SIZE : Nat := 32

/-- `const WORKGROUP_SIZE = 8;` (`part_000`, line 5). -/
def WORKGROUP_SIZE : Nat := 8

/-- `const WORKGROUP_COUNT = Math.ceil(GRID_SIZE / WORKGROUP_SIZE);`
(`part_000`, line 6), ceiling division on naturals. -/
def WORKGROUP_COUNT : Nat := (GRID_SIZE + WORKGROUP_SIZE - 1) / WORKGROUP_SIZE

/-- WGSL `fn cellIndex(cell: vec2u) -> u32 {
  return (cell.y % u32(grid.y)) * u32(grid.x) + (cell.x % u32(grid.x)); }`
(`part_000`, lines 139–141).  `W = u32(grid.x)`, `H = u32(grid.y)`.
For arguments below `U32` and `W * H ≤ U32` (in particular the program's
`W = H = 32`) no intermediate `u32` overflow occurs, so the arithmetic
is exact. -/
def cellIndex (W H x y : Nat) : Nat := (y % H) * W + (x % W)

/-- WGSL `fn cellActive(x: u32, y: u32) -> u32 {
  return cellStateIn[cellIndex(vec2(x, y))]; }` (`part_000`, lines 143–145);
`S` is the `cellStateIn` storage buffer. -/
def cellActive (S : Nat → Nat) (W H x y : Nat) : Nat := S (cellIndex W H x y)

/-- The `activeNeighbors` sum of `computeMain` (`part_000`, lines 149–156):
the eight neighbour lookups in source order, with the `± 1` coordinate
offsets computed in wrapping `u32` arithmetic and the additions reduced
modulo `U32` (a chain of `u32` additions equals the total modulo `2^32`). -/
def activeNeighbors (S : Nat → Nat) (W H x y : Nat) : Nat :=
  (cellActive S W H (u32add x 1) (u32add y 1) +
   cellActive S W H (u32add x 1) y +
   cellActive S W H (u32add x 1) (u32sub y 1) +
   cellActive S W H x (u32sub y 1) +
   cellActive S W H (u32sub x 1) (u32sub y 1) +
   cellActive S W H (u32sub x 1) y +
   cellActive S W H (u32sub x 1) (u32add y 1) +
   cellActive S W H x (u32add y 1)) % U32

/-- The value `computeMain` (`part_000`, lines 147–171) stores into
`cellStateOut[cellIndex(cell.xy)]` for the invocation with global id
`(x, y)`: `switch activeNeighbors { case 2: cellStateIn[index];
case 3: 1; default: 0 }`. -/
def computeMain (S : Nat → Nat) (W H x y : Nat) : Nat :=
  match activeNeighbors S W H x y with
  | 2 => S (cellIndex W H x y)
  | 3 => 1
  | _ => 0

/-- One whole compute pass of `updateGrid` (`part_000`, lines 291–299) at the
program's grid: `dispatchWorkgroups(WORKGROUP_COUNT, WORKGROUP_COUNT)` with
`@workgroup_size(8, 8)` launches the invocations `(x, y)` with
`x, y < WORKGROUP_COUNT * WORKGROUP_SIZE = 32`; each writes
`computeMain S x y` to index `cellIndex(x, y)` of the destination buffer.
That index map is a bijection onto `[0, GRID_SIZE * GRID_SIZE)`
(proved below), so index `idx` receives its value from the unique
invocation `(idx % GRID_SIZE, idx / GRID_SIZE)`; indices past the end of
the 1024-entry buffer model untouched memory and keep the destination's
prior content `D`. -/
def updateGridCompute (S D : Nat → Nat) : Nat → Nat := fun idx =>
  if idx < GRID_SIZE * GRID_SIZE then
    computeMain S GRID_SIZE GRID_SIZE (idx % GRID_SIZE) (idx / GRID_SIZE)
  else D idx

/-- The compute kernel applied across a whole `W × H` grid (the spec's §8
test harness applies the kernel at grid dimensions other than the built-in
32): cell `idx` of the next generation is the value `computeMain` writes for
the invocation `(idx % W, idx / W)`, the unique in-grid invocation whose
`cellIndex` is `idx`. -/
def nextGeneration (W H : Nat) (S : Nat → Nat) : Nat → Nat := fun idx =>
  computeMain S W H (idx % W) (idx / W)

/-- The specification's neighbour count (§4.2, step 1): the sum of the
source states of the 8 toroidal neighbours, with exact integer wraparound
(`x - 1` wraps to column `(x + (W - 1)) mod W`, likewise for rows).
Used to compare the kernel's `u32` arithmetic against the intended
toroidal topology. -/
def liveNeighbors (S : Nat → Nat) (W H x y : Nat) : Nat :=
  S (cellIndex W H (x + 1) (y + 1)) +
  S (cellIndex W H (x + 1) y) +
  S (cellIndex W H (x + 1) (y + (H - 1))) +
  S (cellIndex W H x (y + (H - 1))) +
  S (cellIndex W H (x + (W - 1)) (y + (H - 1))) +
  S (cellIndex W H (x + (W - 1)) y) +
  S (cellIndex W H (x + (W - 1)) (y + 1)) +
  S (cellIndex W H x (y + 1))

/-- The two cell-state storage buffers, labelled as in the source
(`Cell State Storage Buffer A` / `B`, `part_000`, lines 246–257). -/
inductive BufferId where
  | A
  | B
deriving DecidableEq

/-- Which storage buffer a bind group exposes at binding 1 (`cellStateIn`,
read by both `computeMain` and the render pipeline's `cellState`) and at
binding 2 (`cellStateOut`, written by `computeMain`). -/
structure BindGroup where
  cellStateIn : BufferId
  cellStateOut : BufferId
deriving DecidableEq

/-- `uniformBindGroups` (`part_000`, lines 270–289): group 0 binds buffer A
as `cellStateIn` and buffer B as `cellStateOut`; group 1 binds them the
other way round. -/
def uniformBindGroups : List BindGroup :=
  [⟨BufferId.A, BufferId.B⟩, ⟨BufferId.B, BufferId.A⟩]

/-- The bind group used by the compute pass of the frame that starts with
step counter value `s`: `uniformBindGroups[step % 2]`
(`part_000`, line 296). -/
def transitionBindGroup (s : Nat) : BindGroup :=
  uniformBindGroups.getD (s % 2) ⟨BufferId.A, BufferId.B⟩

/-- The buffer holding generation `N`, i.e. the buffer the render pass of
the frame whose (post-increment) step counter is `N` reads as `cellState`:
binding 1 of `uniformBindGroups[step % 2]` (`part_000`, lines 300, 319). -/
def currentBuffer (N : Nat) : BufferId :=
  (uniformBindGroups.getD (N % 2) ⟨BufferId.A, BufferId.B⟩).cellStateIn

/-- Seeding of storage buffer A (`part_000`, lines 259–262):
`for (let i = 0; i < len; i += 3) arr[i] = Math.random() > 0.6 ? 1 : 0;`
over a zero-initialised `Uint32Array`.  `rand i` models the outcome of
`Math.random() > 0.6` at loop index `i` (the loop touches exactly the
indices divisible by 3; all others stay 0). -/
def cellStateArrayA (rand : Nat → Bool) : Nat → Nat := fun i =>
  if i % 3 = 0 then (if rand i then 1 else 0) else 0

/-- Seeding of storage buffer B (`part_000`, lines 264–267):
`for (let i = 0; i < len; i++) arr[i] = i % 2;`. -/
def cellStateArrayB : Nat → Nat := fun i => i % 2

/-- Modelled from the spec: the `density` initial-seed policy of §6 —
"float in [0,1] → randomized seed", every cell randomized according to a
caller-supplied density threshold; `rand i` is the per-cell coin flip. -/
def densityPolicy (rand : Nat → Bool) : Nat → Nat := fun i =>
  if rand i then 1 else 0

/-- Modelled from the spec: the `parity` initial-seed policy of §6 —
"none → every-third-cell pattern", a deterministic pattern lighting every
third cell. -/
def parityPolicy : Nat → Nat := fun i => if i % 3 = 0 then 1 else 0

/-- Modelled from the spec: the `alternating` initial-seed policy of §6 —
"none → i%2 pattern". -/
def alternatingPolicy : Nat → Nat := fun i => i % 2

/-- The 4×4 blinker source of spec §8: live cells exactly at
`(0,1), (1,1), (2,1)`, i.e. flat indices 4, 5, 6. -/
def blinkerH : Nat → Nat := fun idx =>
  if idx = 4 ∨ idx = 5 ∨ idx = 6 then 1 else 0

/-- The vertical line `(1,0), (1,1), (1,2)` on the 4×4 grid, i.e. flat
indices 1, 5, 9 — the state spec §8 requires after one blinker step. -/
def blinkerV : Nat → Nat := fun idx =>
  if idx = 1 ∨ idx = 5 ∨ idx = 9 then 1 else 0

/-- The 3×3 source buffer `[1,0,0, 0,0,0, 0,0,0]` of spec §8: only cell
`(0,0)` alive. -/
def c6source : Nat → Nat := fun idx => if idx = 0 then 1 else 0

/-! Helper lemmas -/

/-- The flat index computed by `cellIndex` always lies inside the buffer. -/
lemma cellIndex_lt (W H x y : Nat) (hW : 0 < W) (hH : 0 < H) :
    cellIndex W H x y < W * H := by
  have hx : x % W < W := Nat.mod_lt _ hW
  have hy : y % H < H := Nat.mod_lt _ hH
  have h1 : (y % H) * W + x % W < (y % H + 1) * W := by
    rw [Nat.succ_mul]; omega
  have h2 : (y % H + 1) * W ≤ H * W := Nat.mul_le_mul_right W (by omega)
  calc cellIndex W H x y = (y % H) * W + x % W := rfl
    _ < (y % H + 1) * W := h1
    _ ≤ H * W := h2
    _ = W * H := Nat.mul_comm H W

/-- `cellIndex` only depends on its coordinates modulo the grid dimensions. -/
lemma cellIndex_mod_congr (W H a a' b b' : Nat) (ha : a % W = a' % W)
    (hb : b % H = b' % H) : cellIndex W H a b = cellIndex W H a' b' := by
  unfold cellIndex; rw [ha, hb]

/-- A wrapping `u32` increment agrees with the exact increment modulo any
divisor of `2^32`. -/
lemma u32add_one_mod (W : Nat) (hW : W ∣ U32) (b : Nat) :
    u32add b 1 % W = (b + 1) % W := by
  unfold u32add
  exact Nat.mod_mod_of_dvd _ hW

/-- A wrapping `u32` decrement agrees with the toroidal decrement
`b + (W - 1)` modulo any positive divisor `W` of `2^32`. -/
lemma u32sub_one_mod (W : Nat) (hWd : W ∣ U32) (hW : 0 < W) (b : Nat) :
    u32sub b 1 % W = (b + (W - 1)) % W := by
  obtain ⟨k, hk⟩ := hWd
  have hk0 : 0 < k := by
    rcases Nat.eq_zero_or_pos k with h | h
    · rw [h, Nat.mul_zero] at hk
      exact absurd hk (by decide)
    · exact h
  have hm : U32 = W * (k - 1) + W := by
    rw [hk]
    cases k with
    | zero => omega
    | succ n => simp [Nat.mul_succ]
  have h1 : u32sub b 1 = (b + (U32 - 1)) % U32 := by
    unfold u32sub
    norm_num [U32]
  have h2 : u32sub b 1 % W = (b + (U32 - 1)) % W := by
    rw [h1]
    exact Nat.mod_mod_of_dvd _ ⟨k, hk⟩
  rw [h2]
  have h3 : b + (U32 - 1) = (b + (W - 1)) + W * (k - 1) := by
    have hU : (1:Nat) ≤ U32 := by decide
    omega
  rw [h3, Nat.add_mul_mod_self_left]

/-- On grid dimensions dividing `2^32` (such as the built-in 32) and for a
buffer of single-bit cell states, the kernel's `u32`-wraparound neighbour
sum `activeNeighbors` equals the specification's toroidal neighbour count
`liveNeighbors`. -/
lemma activeNeighbors_eq_liveNeighbors (S : Nat → Nat) (W H x y : Nat)
    (hWd : W ∣ U32) (hHd : H ∣ U32) (hW : 0 < W) (hH : 0 < H)
    (hS : ∀ i, S i ≤ 1) :
    activeNeighbors S W H x y = liveNeighbors S W H x y := by
  have e1 : cellIndex W H (u32add x 1) (u32add y 1) = cellIndex W H (x + 1) (y + 1) :=
    cellIndex_mod_congr W H _ _ _ _ (u32add_one_mod W hWd x) (u32add_one_mod H hHd y)
  have e2 : cellIndex W H (u32add x 1) y = cellIndex W H (x + 1) y :=
    cellIndex_mod_congr W H _ _ _ _ (u32add_one_mod W hWd x) rfl
  have e3 : cellIndex W H (u32add x 1) (u32sub y 1) = cellIndex W H (x + 1) (y + (H - 1)) :=
    cellIndex_mod_congr W H _ _ _ _ (u32add_one_mod W hWd x) (u32sub_one_mod H hHd hH y)
  have e4 : cellIndex W H x (u32sub y 1) = cellIndex W H x (y + (H - 1)) :=
    cellIndex_mod_congr W H _ _ _ _ rfl (u32sub_one_mod H hHd hH y)
  have e5 : cellIndex W H (u32sub x 1) (u32sub y 1) =
      cellIndex W H (x + (W - 1)) (y + (H - 1)) :=
    cellIndex_mod_congr W H _ _ _ _ (u32sub_one_mod W hWd hW x) (u32sub_one_mod H hHd hH y)
  have e6 : cellIndex W H (u32sub x 1) y = cellIndex W H (x + (W - 1)) y :=
    cellIndex_mod_congr W H _ _ _ _ (u32sub_one_mod W hWd hW x) rfl
  have e7 : cellIndex W H (u32sub x 1) (u32add y 1) =
      cellIndex W H (x + (W - 1)) (y + 1) :=
    cellIndex_mod_congr W H _ _ _ _ (u32sub_one_mod W hWd hW x) (u32add_one_mod H hHd y)
  have e8 : cellIndex W H x (u32add y 1) = cellIndex W H x (y + 1) :=
    cellIndex_mod_congr W H _ _ _ _ rfl (u32add_one_mod H hHd y)
  unfold activeNeighbors cellActive
  rw [e1, e2, e3, e4, e5, e6, e7, e8]
  apply Nat.mod_eq_of_lt
  have b1 := hS (cellIndex W H (x + 1) (y + 1))
  have b2 := hS (cellIndex W H (x + 1) y)
  have b3 := hS (cellIndex W H (x + 1) (y + (H - 1)))
  have b4 := hS (cellIndex W H x (y + (H - 1)))
  have b5 := hS (cellIndex W H (x + (W - 1)) (y + (H - 1)))
  have b6 := hS (cellIndex W H (x + (W - 1)) y)
  have b7 := hS (cellIndex W H (x + (W - 1)) (y + 1))
  have b8 := hS (cellIndex W H x (y + 1))
  have hU : (8:Nat) < U32 := by decide
  omega

/-- The `switch` of `computeMain` written as nested conditionals. -/
lemma computeMain_eq (S : Nat → Nat) (W H x y : Nat) :
    computeMain S W H x y =
      if activeNeighbors S W H x y = 2 then S (cellIndex W H x y)
      else if activeNeighbors S W H x y = 3 then 1 else 0 := by
  unfold computeMain
  rcases h : activeNeighbors S W H x y with _ | _ | _ | _ | n <;> simp

/-- Restricted to one period `[0, W) × [0, H)`, `cellIndex` hits every flat
index below `W * H` exactly once. -/
lemma cellIndex_bijection (W H : Nat) (hW : 0 < W) (hH : 0 < H) (idx : Nat)
    (hidx : idx < W * H) :
    ∃! p : Nat × Nat, p.1 < W ∧ p.2 < H ∧ cellIndex W H p.1 p.2 = idx := by
  have hdiv : idx / W < H := Nat.div_lt_of_lt_mul hidx
  refine ⟨(idx % W, idx / W), ⟨Nat.mod_lt _ hW, hdiv, ?_⟩, ?_⟩
  · unfold cellIndex
    rw [Nat.mod_eq_of_lt hdiv, Nat.mod_mod_of_dvd _ (dvd_refl W)]
    calc (idx / W) * W + idx % W = W * (idx / W) + idx % W := by ring
      _ = idx := Nat.div_add_mod idx W
  · rintro ⟨a, b⟩ ⟨ha, hb, hab⟩
    unfold cellIndex at hab
    rw [Nat.mod_eq_of_lt ha, Nat.mod_eq_of_lt hb] at hab
    have h1 : idx % W = a := by
      rw [← hab, Nat.add_comm, Nat.add_mul_mod_self_right, Nat.mod_eq_of_lt ha]
    have h2 : idx / W = b := by
      rw [← hab, Nat.add_comm, Nat.add_mul_div_right _ _ hW, Nat.div_eq_of_lt ha,
        Nat.zero_add]
    simp [Prod.ext_iff, h1, h2]

/-- For indices inside the grid, `cellIndex` inverts the
`(idx % W, idx / W)` decomposition. -/
lemma cellIndex_mod_div (W H idx : Nat) (hW : 0 < W) (hidx : idx < W * H) :
    cellIndex W H (idx % W) (idx / W) = idx := by
  have hdiv : idx / W < H := Nat.div_lt_of_lt_mul hidx
  unfold cellIndex
  rw [Nat.mod_eq_of_lt hdiv, Nat.mod_mod_of_dvd _ (dvd_refl W)]
  calc (idx / W) * W + idx % W = W * (idx / W) + idx % W := by ring
    _ = idx := Nat.div_add_mod idx W

/-! Claim theorems -/

/-- C1: for every (single-bit) source buffer `S`, every destination buffer
produced by one transition step from `S`, and every cell index `idx` of the
program's 32×32 grid: if the cell's 8-toroidal-neighbour live count is 2 the
destination keeps the source state at `idx`; if it is 3 the destination cell
is 1; for every other count the destination cell is 0. -/
theorem rule_fidelity (S D : Nat → Nat) (hS : ∀ i, S i ≤ 1) (idx : Nat)
    (hidx : idx < GRID_SIZE * GRID_SIZE) :
    (liveNeighbors S GRID_SIZE GRID_SIZE (idx % GRID_SIZE) (idx / GRID_SIZE) = 2 →
      updateGridCompute S D idx = S idx) ∧
    (liveNeighbors S GRID_SIZE GRID_SIZE (idx % GRID_SIZE) (idx / GRID_SIZE) = 3 →
      updateGridCompute S D idx = 1) ∧
    (liveNeighbors S GRID_SIZE GRID_SIZE (idx % GRID_SIZE) (idx / GRID_SIZE) ≠ 2 →
      liveNeighbors S GRID_SIZE GRID_SIZE (idx % GRID_SIZE) (idx / GRID_SIZE) ≠ 3 →
      updateGridCompute S D idx = 0) := by
  have key := activeNeighbors_eq_liveNeighbors S GRID_SIZE GRID_SIZE
    (idx % GRID_SIZE) (idx / GRID_SIZE) (by decide) (by decide) (by decide)
    (by decide) hS
  have hup : updateGridCompute S D idx =
      computeMain S GRID_SIZE GRID_SIZE (idx % GRID_SIZE) (idx / GRID_SIZE) := by
    unfold updateGridCompute
    rw [if_pos hidx]
  have hcell : cellIndex GRID_SIZE GRID_SIZE (idx % GRID_SIZE) (idx / GRID_SIZE) = idx :=
    cellIndex_mod_div GRID_SIZE GRID_SIZE idx (by decide) hidx
  rw [hup, computeMain_eq, key, hcell]
  refine ⟨fun h2 => ?_, fun h3 => ?_, fun h2 h3 => ?_⟩
  · rw [if_pos h2]
  · rw [if_neg (by omega), if_pos h3]
  · rw [if_neg h2, if_neg h3]

/-- C1 witness: the all-dead buffer has neighbour count 0 everywhere, so
cell 0 of the destination is 0. -/
theorem rule_fidelity_witness :
    updateGridCompute (fun _ => 0) (fun _ => 7) 0 = 0 :=
  (rule_fidelity (fun _ => 0) (fun _ => 7) (fun _ => Nat.zero_le 1) 0
    (by decide)).2.2 (by decide) (by decide)

/-- C2: for positive grid dimensions `(W, H)`, `cellIndex x y` equals
`(y mod H) * W + (x mod W)`; restricted to one period `[0,W) × [0,H)` it is
a bijection onto `[0, W*H)`; and it is periodic with periods `W` in `x` and
`H` in `y`. -/
theorem cellIndex_contract (W H x y : Nat) (hW : 0 < W) (hH : 0 < H) :
    cellIndex W H x y = (y % H) * W + (x % W) ∧
    (∀ idx, idx < W * H →
      ∃! p : Nat × Nat, p.1 < W ∧ p.2 < H ∧ cellIndex W H p.1 p.2 = idx) ∧
    cellIndex W H (x + W) y = cellIndex W H x y ∧
    cellIndex W H x (y + H) = cellIndex W H x y := by
  refine ⟨rfl, fun idx hidx => cellIndex_bijection W H hW hH idx hidx, ?_, ?_⟩
  · unfold cellIndex
    rw [Nat.add_mod_right]
  · unfold cellIndex
    rw [Nat.add_mod_right]

/-- C2 witness: wraparound at the program's own dimensions. -/
theorem cellIndex_contract_witness :
    cellIndex 32 32 (5 + 32) 7 = cellIndex 32 32 5 7 :=
  (cellIndex_contract 32 32 5 7 (by decide) (by decide)).2.2.1

/-- C3: `currentBuffer N` (the buffer the render pass of step `N` reads) is
`A` for even `N` and `B` for odd `N`; the transition that produces step
`N + 1` reads `currentBuffer N` at binding `cellStateIn` and writes
`currentBuffer (N + 1)` at binding `cellStateOut`; and `currentBuffer`
alternates strictly. -/
theorem buffer_alternation (N : Nat) :
    currentBuffer N = (if N % 2 = 0 then BufferId.A else BufferId.B) ∧
    (transitionBindGroup N).cellStateIn = currentBuffer N ∧
    (transitionBindGroup N).cellStateOut = currentBuffer (N + 1) ∧
    currentBuffer N ≠ currentBuffer (N + 1) := by
  rcases Nat.mod_two_eq_zero_or_one N with h | h
  · have h1 : (N + 1) % 2 = 1 := by omega
    unfold currentBuffer transitionBindGroup
    rw [h, h1]
    decide
  · have h1 : (N + 1) % 2 = 0 := by omega
    unfold currentBuffer transitionBindGroup
    rw [h, h1]
    decide

/-- C3 witness: at step 0 the current buffer is `A` and it differs from the
current buffer of step 1. -/
theorem buffer_alternation_witness : currentBuffer 0 ≠ currentBuffer 1 :=
  (buffer_alternation 0).2.2.2

/-- C4: a transition step from the same source into two destination buffers
with arbitrary different prior contents produces identical destination
contents — the destination depends only on the pre-transition source. -/
theorem buffer_isolation (S D1 D2 : Nat → Nat) (idx : Nat)
    (hidx : idx < GRID_SIZE * GRID_SIZE) :
    updateGridCompute S D1 idx = updateGridCompute S D2 idx := by
  unfold updateGridCompute
  rw [if_pos hidx, if_pos hidx]

/-- C4 witness: two destinations with different prior contents agree at
cell 0 after a step from the all-dead source. -/
theorem buffer_isolation_witness :
    updateGridCompute (fun _ => 0) (fun _ => 5) 0 =
      updateGridCompute (fun _ => 0) (fun _ => 9) 0 :=
  buffer_isolation (fun _ => 0) (fun _ => 5) (fun _ => 9) 0 (by decide)

/-- C5: on the 4×4 toroidal grid whose only live cells are the horizontal
line (0,1), (1,1), (2,1), one transition step yields exactly the vertical
line (1,0), (1,1), (1,2), and a second step restores exactly the original
horizontal line. -/
theorem blinker_oscillation :
    (List.range 16).map (nextGeneration 4 4 blinkerH) =
      (List.range 16).map blinkerV ∧
    (List.range 16).map (nextGeneration 4 4 (nextGeneration 4 4 blinkerH)) =
      (List.range 16).map blinkerH := by decide

/-- C6 counterexample: on the 3×3 grid with only cell (0,0) alive, the
kernel does not leave cell (0,0) dead — it writes 1, because its `u32`
wraparound is not toroidal when the width does not divide `2^32`. -/
theorem rule_3x3_counterexample :
    ¬ (nextGeneration 3 3 c6source 0 = 0) ∧ nextGeneration 3 3 c6source 0 = 1 := by
  decide

/-- C6 amended: the true toroidal neighbour count of cell (0,0) is 0, but
3 does not divide `2^32` (`2^32 mod 3 = 1`), so the kernel's wrapped `-1`
offsets land on the cell's own row/column (`(2^32 - 1) mod 3 = 0`); the
kernel therefore counts 3 live neighbours and writes cell (0,0) alive. -/
theorem rule_3x3_amended :
    liveNeighbors c6source 3 3 0 0 = 0 ∧
    U32 % 3 = 1 ∧
    u32sub 0 1 % 3 = 0 ∧
    activeNeighbors c6source 3 3 0 0 = 3 ∧
    nextGeneration 3 3 c6source 0 = 1 := by
  decide

/-- C7: the left-neighbour lookup of a cell at `x = 0` first wraps to
`2^32 - 1` in `u32` arithmetic and only then reduces modulo `W`, so it
reads column `(2^32 - 1) mod W`; that equals the toroidal neighbour column
`W - 1` exactly when `W` divides `2^32`, which holds for the built-in
`GRID_SIZE = 32`.  Rows behave identically (the statement is generic in
the dimension). -/
theorem unsigned_wraparound (W H y : Nat) (hW : 0 < W) :
    u32sub 0 1 = U32 - 1 ∧
    U32 = 2 ^ 32 ∧
    cellIndex W H (u32sub 0 1) y = (y % H) * W + ((U32 - 1) % W) ∧
    ((U32 - 1) % W = W - 1 ↔ W ∣ U32) ∧
    GRID_SIZE ∣ U32 ∧
    u32sub 0 1 % GRID_SIZE = GRID_SIZE - 1 := by
  have hsub : u32sub 0 1 = U32 - 1 := by decide
  refine ⟨hsub, by decide, ?_, ⟨fun h => ?_, fun h => ?_⟩, by decide, by decide⟩
  · unfold cellIndex
    rw [hsub]
  · have hq : W * ((U32 - 1) / W) + (U32 - 1) % W = U32 - 1 :=
      Nat.div_add_mod (U32 - 1) W
    rw [h] at hq
    have hU : (1:Nat) ≤ U32 := by decide
    obtain ⟨m, hm⟩ : ∃ m, W * ((U32 - 1) / W) = m := ⟨_, rfl⟩
    rw [hm] at hq
    have hmw : U32 = m + W := by omega
    refine ⟨(U32 - 1) / W + 1, ?_⟩
    rw [Nat.mul_add, Nat.mul_one, hm, hmw]
  · have h10 := u32sub_one_mod W h hW 0
    rw [hsub] at h10
    rw [Nat.zero_add] at h10
    rw [h10, Nat.mod_eq_of_lt (by omega)]

/-- C7 witness: at the program's width 32, the wrapped left neighbour of
column 0 is column 31. -/
theorem unsigned_wraparound_witness : u32sub 0 1 % GRID_SIZE = GRID_SIZE - 1 :=
  (unsigned_wraparound 32 32 0 (by decide)).2.2.2.2.2

/-- C8: two runs of one transition step from sources with identical
contents (and arbitrary destination prior contents) produce identical
destination contents — the kernel reads nothing but the source cells, so
there is no randomness or hidden input. -/
theorem transition_determinism (S1 S2 D1 D2 : Nat → Nat)
    (hS : ∀ i, i < GRID_SIZE * GRID_SIZE → S1 i = S2 i) (idx : Nat)
    (hidx : idx < GRID_SIZE * GRID_SIZE) :
    updateGridCompute S1 D1 idx = updateGridCompute S2 D2 idx := by
  have hread : ∀ a b, S1 (cellIndex GRID_SIZE GRID_SIZE a b) =
      S2 (cellIndex GRID_SIZE GRID_SIZE a b) :=
    fun a b => hS _ (cellIndex_lt GRID_SIZE GRID_SIZE a b (by decide) (by decide))
  unfold updateGridCompute
  rw [if_pos hidx, if_pos hidx]
  unfold computeMain activeNeighbors cellActive
  simp only [hread]

/-- C8 witness: the all-dead source and a pointwise-equal copy of it give
the same value at cell 0, for different destination prior contents. -/
theorem transition_determinism_witness :
    updateGridCompute (fun _ => 0) (fun _ => 3) 0 =
      updateGridCompute (fun i => i - i) (fun _ => 8) 0 :=
  transition_determinism (fun _ => 0) (fun i => i - i) (fun _ => 3) (fun _ => 8)
    (fun i _ => (Nat.sub_self i).symm) 0 (by decide)

/-- C9: the dispatch of `WORKGROUP_COUNT × WORKGROUP_COUNT` workgroups of
`8 × 8` invocations launches exactly `GRID_SIZE` invocations per axis; every
destination index below `GRID_SIZE * GRID_SIZE` is written by exactly one
invocation; each launched invocation's write lands at its own `cellIndex`
with a value depending only on the source; and the destination buffer's
prior content never influences the produced contents. -/
theorem first_step_full_coverage :
    WORKGROUP_COUNT * WORKGROUP_SIZE = GRID_SIZE ∧
    (∀ idx, idx < GRID_SIZE * GRID_SIZE →
      ∃! p : Nat × Nat, p.1 < WORKGROUP_COUNT * WORKGROUP_SIZE ∧
        p.2 < WORKGROUP_COUNT * WORKGROUP_SIZE ∧
        cellIndex GRID_SIZE GRID_SIZE p.1 p.2 = idx) ∧
    (∀ S D x y, x < WORKGROUP_COUNT * WORKGROUP_SIZE →
      y < WORKGROUP_COUNT * WORKGROUP_SIZE →
      updateGridCompute S D (cellIndex GRID_SIZE GRID_SIZE x y) =
        computeMain S GRID_SIZE GRID_SIZE x y) ∧
    (∀ S D1 D2 idx, idx < GRID_SIZE * GRID_SIZE →
      updateGridCompute S D1 idx = updateGridCompute S D2 idx) := by
  have hWC : WORKGROUP_COUNT * WORKGROUP_SIZE = GRID_SIZE := by decide
  refine ⟨hWC, ?_, ?_, ?_⟩
  · intro idx hidx
    rw [hWC]
    exact cellIndex_bijection GRID_SIZE GRID_SIZE (by decide) (by decide) idx hidx
  · intro S D x y hx hy
    rw [hWC] at hx hy
    have hlt : cellIndex GRID_SIZE GRID_SIZE x y < GRID_SIZE * GRID_SIZE :=
      cellIndex_lt GRID_SIZE GRID_SIZE x y (by decide) (by decide)
    unfold updateGridCompute
    rw [if_pos hlt]
    have hx' : x % 32 = x := Nat.mod_eq_of_lt hx
    have hy' : y % 32 = y := Nat.mod_eq_of_lt hy
    have hmod : cellIndex GRID_SIZE GRID_SIZE x y % GRID_SIZE = x := by
      show ((y % 32) * 32 + x % 32) % 32 = x
      rw [Nat.add_comm, Nat.add_mul_mod_self_right, Nat.mod_mod_of_dvd _ (dvd_refl 32)]
      exact hx'
    have hdiv : cellIndex GRID_SIZE GRID_SIZE x y / GRID_SIZE = y := by
      show ((y % 32) * 32 + x % 32) / 32 = y
      rw [Nat.add_comm, Nat.add_mul_div_right _ _ (by decide : (0:Nat) < 32),
        Nat.div_eq_of_lt (Nat.mod_lt x (by decide)), Nat.zero_add, hy']
    rw [hmod, hdiv]
  · intro S D1 D2 idx hidx
    unfold updateGridCompute
    rw [if_pos hidx, if_pos hidx]

/-- C10 counterexample: the code's seeding of buffer A is none of the three
enumerated policies — it zeroes index 1 where the density policy randomizes
every cell, it depends on the random stream where the parity pattern is
deterministic (and disagrees with it at index 0 when the coin is 0), and it
disagrees with the alternating `i % 2` pattern at index 1. -/
theorem seeding_policy_counterexample :
    cellStateArrayA (fun _ => true) 1 = 0 ∧
    densityPolicy (fun _ => true) 1 = 1 ∧
    cellStateArrayA (fun _ => false) 0 = 0 ∧
    parityPolicy 0 = 1 ∧
    alternatingPolicy 1 = 1 ∧
    cellStateArrayA (fun _ => true) 0 ≠ cellStateArrayA (fun _ => false) 0 := by
  decide

/-- C10 amended: buffer A's seed is a hybrid of the enumerated policies —
the density-style randomization applied only to every third cell (the
threshold 0.6 is hardcoded, not caller-supplied) with all other cells dead —
while buffer B, not A, receives the alternating `i % 2` pattern. -/
theorem seeding_policy_amended (rand : Nat → Bool) (i : Nat) :
    cellStateArrayA rand i =
      (if i % 3 = 0 then densityPolicy rand i else 0) ∧
    cellStateArrayB i = alternatingPolicy i :=
  ⟨rfl, rfl⟩

end GameOfLife
